import Mathlib

set_option maxRecDepth 20000

/-!
Verification of the MotteSeed torrent metadata and tracker announce layer.

The Rust source is embedded shallowly: bytes are `Nat` (each < 256 where it
matters), machine integers are `Nat`/`Int` with explicit `% 2^64` where
overflow matters, fallible code returns `Except`, and the bencode value tree
of the external `bencode` crate is the inductive `Bencode` below.
-/

/-- The bencode value tree (`Bencode` in the external bencode crate, the
"Value" of spec section 3): integers, byte strings, lists and dictionaries.
Dictionaries are association lists kept in ascending byte-lexicographic key
order with unique keys, mirroring `BTreeMap<ByteString, Bencode>`. -/
inductive Bencode where
  | num : Int → Bencode
  | bstr : List Nat → Bencode
  | blist : List Bencode → Bencode
  | bdict : List (List Nat × Bencode) → Bencode

/-- ASCII bytes of a string literal, for bencode keys and fixtures. -/
def asciiBytes (s : String) : List Nat :=
  s.toList.map (fun c => c.toNat)

/-- `BTreeMap::get`: first association-list entry whose key matches. -/
def benLookup (k : List Nat) : List (List Nat × Bencode) → Option Bencode
  | [] => none
  | (k2, v) :: es => if k = k2 then some v else benLookup k es

/-- 32-bit truncation. -/
def w32 (n : Nat) : Nat := n % 4294967296

/-- 32-bit left rotation by `k` of a word `n < 2^32`. -/
def rotl (k n : Nat) : Nat := w32 (n * 2 ^ k) + w32 n / 2 ^ (32 - k)

/-- Big-endian 4-byte encoding of a 32-bit word. -/
def be4 (n : Nat) : List Nat :=
  [n / 16777216 % 256, n / 65536 % 256, n / 256 % 256, n % 256]

/-- Big-endian 8-byte encoding of a 64-bit value. -/
def be8 (n : Nat) : List Nat :=
  [n / 2 ^ 56 % 256, n / 2 ^ 48 % 256, n / 2 ^ 40 % 256, n / 2 ^ 32 % 256,
   n / 2 ^ 24 % 256, n / 2 ^ 16 % 256, n / 2 ^ 8 % 256, n % 256]

/-- SHA-1 padding (FIPS 180-1), as performed by the `sha1` crate. -/
def sha1Pad (msg : List Nat) : List Nat :=
  msg ++ [128] ++ List.replicate ((119 - msg.length % 64) % 64) 0 ++ be8 (8 * msg.length)

/-- Group bytes into big-endian 32-bit words. -/
def toW : List Nat → List Nat
  | a :: b :: c :: d :: rest => (a * 16777216 + b * 65536 + c * 256 + d) :: toW rest
  | _ => []

/-- Split a word list into 16-word blocks; the fuel is ≥ the block count. -/
def chunk16 : Nat → List Nat → List (List Nat)
  | 0, _ => []
  | _ + 1, [] => []
  | f + 1, ws => ws.take 16 :: chunk16 f (ws.drop 16)

/-- SHA-1 message-schedule extension: append `n` further words. -/
def sched : List Nat → Nat → List Nat
  | ws, 0 => ws
  | ws, n + 1 =>
    sched (ws ++ [rotl 1 (Nat.xor
      (Nat.xor (ws.getD (ws.length - 3) 0) (ws.getD (ws.length - 8) 0))
      (Nat.xor (ws.getD (ws.length - 14) 0) (ws.getD (ws.length - 16) 0)))]) n

/-- SHA-1 round logical function. -/
def sha1F (t b c d : Nat) : Nat :=
  if t < 20 then Nat.lor (Nat.land b c) (Nat.land (4294967295 - b) d)
  else if t < 40 then Nat.xor (Nat.xor b c) d
  else if t < 60 then Nat.lor (Nat.lor (Nat.land b c) (Nat.land b d)) (Nat.land c d)
  else Nat.xor (Nat.xor b c) d

/-- SHA-1 round constant. -/
def sha1K (t : Nat) : Nat :=
  if t < 20 then 1518500249
  else if t < 40 then 1859775393
  else if t < 60 then 2400959708
  else 3395469782

/-- The five 32-bit SHA-1 state words. -/
structure H5 where
  a : Nat
  b : Nat
  c : Nat
  d : Nat
  e : Nat

/-- SHA-1 initial state. -/
def sha1Init : H5 := ⟨1732584193, 4023233417, 2562383102, 271733878, 3285377520⟩

/-- One SHA-1 round. -/
def sha1Step (w : List Nat) (st : H5) (t : Nat) : H5 :=
  ⟨w32 (rotl 5 st.a + sha1F t st.b st.c st.d + st.e + sha1K t + w.getD t 0),
   st.a, rotl 30 st.b, st.c, st.d⟩

/-- SHA-1 compression of one 16-word block. -/
def sha1Compress (h : H5) (block : List Nat) : H5 :=
  let w := sched block 64
  let r := (List.range 80).foldl (sha1Step w) h
  ⟨w32 (h.a + r.a), w32 (h.b + r.b), w32 (h.c + r.c), w32 (h.d + r.d), w32 (h.e + r.e)⟩

/-- SHA-1 of a byte sequence (the `sha1` crate used by `Torrent::decode`),
returned as 20 bytes. -/
def sha1 (msg : List Nat) : List Nat :=
  let ws := toW (sha1Pad msg)
  let h := (chunk16 (ws.length + 1) ws).foldl sha1Compress sha1Init
  be4 h.a ++ be4 h.b ++ be4 h.c ++ be4 h.d ++ be4 h.e

/-! ## Canonical bencode serialization (`Bencode::to_bytes` of the bencode crate) -/

/-- Decimal ASCII digits of a natural number. -/
def natDecimal (n : Nat) : List Nat := (Nat.repr n).toList.map (fun c => c.toNat)

/-- Bencode integer payload: decimal digits, with a leading minus for negatives. -/
def intDecimal (n : Int) : List Nat :=
  if n < 0 then 45 :: natDecimal n.natAbs else natDecimal n.toNat

/-- Bencode byte-string encoding: decimal length, a colon, then the bytes. -/
def strEnc (s : List Nat) : List Nat := natDecimal s.length ++ [58] ++ s

/-- Fuel-indexed canonical bencode encoder; the fuel bounds the tree depth,
and the node count `bsize` below always suffices (`toBytesF_fuel_irrelevant`).
Dictionaries are emitted in stored (ascending key) order, exactly as
`Bencode::to_bytes` walks a `BTreeMap`. -/
def toBytesF : Nat → Bencode → List Nat
  | 0, _ => []
  | _ + 1, .num n => 105 :: intDecimal n ++ [101]
  | _ + 1, .bstr s => strEnc s
  | f + 1, .blist l => 108 :: (l.map (toBytesF f)).flatten ++ [101]
  | f + 1, .bdict es => 100 :: (es.map (fun kv => strEnc kv.1 ++ toBytesF f kv.2)).flatten ++ [101]

mutual

/-- Node count of a bencode value, an upper bound for the encoder fuel. -/
def bsize : Bencode → Nat
  | .num _ => 1
  | .bstr _ => 1
  | .blist l => 1 + bsizeL l
  | .bdict es => 1 + bsizeD es

/-- Total node count of a list of bencode values. -/
def bsizeL : List Bencode → Nat
  | [] => 0
  | b :: rest => bsize b + bsizeL rest

/-- Total node count of the values of a dictionary. -/
def bsizeD : List (List Nat × Bencode) → Nat
  | [] => 0
  | kv :: rest => bsize kv.2 + bsizeD rest

end

/-- `Bencode::to_bytes`: canonical re-serialization of a parsed value. -/
def toBytes (b : Bencode) : List Nat := toBytesF (bsize b) b

/-! ## The raw-bytes-to-Value parser (`bencode::from_buffer`)

Modelled from the spec: the parser itself is an external collaborator
(spec section 6, "a raw-bytes-to-Value parser"); only its callers are under
`src/`. Per spec section 4.3 a "non-canonical but still-parseable encoding"
exists and is silently normalized by re-serialization, so the model accepts
out-of-order dictionary keys and normalizes them into the key-sorted `Dict`
of spec section 3. -/

/-- ASCII decimal digit test. -/
def isDigitB (c : Nat) : Bool := 48 ≤ c && c ≤ 57

/-- Value of a list of ASCII digits. -/
def digitsVal (ds : List Nat) : Nat := ds.foldl (fun a c => a * 10 + (c - 48)) 0

/-- Take exactly `n` bytes, failing if fewer remain. -/
def takeN : Nat → List Nat → Option (List Nat × List Nat)
  | 0, r => some ([], r)
  | _ + 1, [] => none
  | n + 1, c :: r =>
    match takeN n r with
    | some (xs, rest) => some (c :: xs, rest)
    | none => none

/-- Strict byte-lexicographic key order (the `Ord` of `ByteString`). -/
def keyLt : List Nat → List Nat → Bool
  | [], [] => false
  | [], _ :: _ => true
  | _ :: _, [] => false
  | a :: as2, b :: bs => if a < b then true else if b < a then false else keyLt as2 bs

/-- Insert into a sorted association list, keeping ascending key order. -/
def sortedIns (k : List Nat) (v : Bencode) :
    List (List Nat × Bencode) → List (List Nat × Bencode)
  | [] => [(k, v)]
  | (k2, v2) :: rest =>
    if keyLt k k2 then (k, v) :: (k2, v2) :: rest else (k2, v2) :: sortedIns k v rest

/-- `BTreeMap` insertion order semantics: `es` holds the entries parsed after
`(k, v)`, and a later duplicate key overwrites an earlier one. -/
def dictIns (k : List Nat) (v : Bencode) (es : List (List Nat × Bencode)) :
    List (List Nat × Bencode) :=
  if (benLookup k es).isSome then es else sortedIns k v es

/-- Parse the body of a bencode integer (after the `i`): optional minus sign,
digits bounded by the i64 range, then `e`. -/
def parseIntBody (s : List Nat) : Option (Bencode × List Nat) :=
  let neg := match s with
    | 45 :: _ => true
    | _ => false
  let s2 := if neg then s.drop 1 else s
  let ds := s2.takeWhile isDigitB
  let rest := s2.dropWhile isDigitB
  if ds = [] then none
  else
    match rest with
    | 101 :: r =>
      let v := digitsVal ds
      if neg then
        if v ≤ 9223372036854775808 then some (.num (-(v : Int)), r) else none
      else
        if v ≤ 9223372036854775807 then some (.num (v : Int), r) else none
    | _ => none

/-- Parse a bencode byte string: decimal length, `:`, then that many bytes. -/
def parseStrBody (s : List Nat) : Option (Bencode × List Nat) :=
  let ds := s.takeWhile isDigitB
  let rest := s.dropWhile isDigitB
  if ds = [] then none
  else
    match rest with
    | 58 :: r =>
      match takeN (digitsVal ds) r with
      | some (bytes, r2) => some (.bstr bytes, r2)
      | none => none
    | _ => none

/-- Fuel-indexed bencode parser. `mode 0` parses one value, `mode 1` parses
list items up to the closing `e` (returned as `.blist`), `mode 2` parses
dictionary entries up to the closing `e` (returned as `.bdict`). -/
def parseA : Nat → Nat → List Nat → Option (Bencode × List Nat)
  | 0, _, _ => none
  | f + 1, 0, s =>
    match s with
    | [] => none
    | c :: r =>
      if c = 105 then parseIntBody r
      else if c = 108 then parseA f 1 r
      else if c = 100 then parseA f 2 r
      else if isDigitB c then parseStrBody s
      else none
  | f + 1, 1, s =>
    match s with
    | 101 :: r => some (.blist [], r)
    | _ =>
      match parseA f 0 s with
      | some (v, rest) =>
        match parseA f 1 rest with
        | some (.blist vs, rest2) => some (.blist (v :: vs), rest2)
        | _ => none
      | none => none
  | f + 1, 2, s =>
    match s with
    | 101 :: r => some (.bdict [], r)
    | _ =>
      match parseA f 0 s with
      | some (.bstr k, rest) =>
        match parseA f 0 rest with
        | some (v, rest2) =>
          match parseA f 2 rest2 with
          | some (.bdict es, rest3) => some (.bdict (dictIns k v es), rest3)
          | _ => none
        | none => none
      | _ => none
  | _ + 1, _ + 3, _ => none

/-- Parse one bencode value from a buffer, with sufficient fuel. -/
def parseBen (s : List Nat) : Option (Bencode × List Nat) :=
  parseA (2 * s.length + 2) 0 s

/-! ## Torrent metadata model (src/core/torrent/torrent.rs) -/

/-- `ReadTorrentError` of src/core/torrent/torrent_error.rs. `LogicError` is
the structural-validation kind, a constructor distinct from the type errors
`WrongType` and `KeyNotFound`. -/
inductive ReadTorrentError where
  | KeyNotFound : String → ReadTorrentError
  | WrongType : String → ReadTorrentError
  | LogicError : String → ReadTorrentError
  | StreamingError : String → ReadTorrentError
deriving DecidableEq

/-- `FileEntry` of torrent.rs: one file of a multi-file torrent. -/
structure FileEntry where
  length : Nat
  path : List (List Nat)
deriving DecidableEq

/-- `FileDetails` of torrent.rs: single-file or multi-file layout. -/
inductive FileDetails where
  | SingleFile : Nat → FileDetails
  | MultiFile : List FileEntry → FileDetails
deriving DecidableEq

/-- Whether the layout is the `SingleFile` variant. -/
def FileDetails.isSingle : FileDetails → Bool
  | .SingleFile _ => true
  | .MultiFile _ => false

/-- `Info` of torrent.rs. `name` is kept as the raw bytes: the source runs
them through the total `String::from_utf8_lossy`, which cannot fail and is
not inspected by any claim. -/
structure Info where
  name : List Nat
  piece_length : Nat
  raw_pieces : List Nat
  file_details : FileDetails
deriving DecidableEq

/-- `Torrent` of torrent.rs. -/
structure Torrent where
  announce : List Nat
  info : Info
  info_hash : List Nat
deriving DecidableEq

/-- `BencodeDecodable::get_struct` (torrent.rs lines 47-52). -/
def getStruct : Bencode → Except ReadTorrentError (List (List Nat × Bencode))
  | .bdict d => .ok d
  | _ => .error (.WrongType "Expected a dictionary")

/-- `BencodeDecodable::get_str` (torrent.rs lines 33-38). -/
def getStr : Bencode → Except ReadTorrentError (List Nat)
  | .bstr s => .ok s
  | _ => .error (.WrongType "Expected a ByteString")

/-- `BencodeDecodable::get_u64` (torrent.rs lines 23-30): an `i64` number is
converted with `try_into::<u64>()`, which fails exactly on negatives. -/
def getU64 : Bencode → Except ReadTorrentError Nat
  | .num n => if 0 ≤ n then .ok n.toNat else .error (.WrongType "Expected a Number")
  | _ => .error (.WrongType "Expected a Number")

/-- `BencodeDecodable::get_list` (torrent.rs lines 73-78). -/
def getList : Bencode → Except ReadTorrentError (List Bencode)
  | .blist l => .ok l
  | _ => .error (.WrongType "Expected a list")

/-- `BencodeDecodable::get_struct_value` (torrent.rs lines 55-70):
`BTreeMap::get` with a `KeyNotFound` error naming the key. -/
def getValue (k : List Nat) (name : String) (dict : List (List Nat × Bencode)) :
    Except ReadTorrentError Bencode :=
  match benLookup k dict with
  | some v => .ok v
  | none => .error (.KeyNotFound ("Key '" ++ name ++ "' not found"))

def keyAnnounce : List Nat := asciiBytes "announce"

def keyInfo : List Nat := asciiBytes "info"

def keyName : List Nat := asciiBytes "name"

def keyPieceLength : List Nat := asciiBytes "piece length"

def keyPieces : List Nat := asciiBytes "pieces"

def keyLength : List Nat := asciiBytes "length"

def keyFiles : List Nat := asciiBytes "files"

def keyPath : List Nat := asciiBytes "path"

/-- Byte lists of the items of a bencode path list (the loop of
`FileEntry::decode`, torrent.rs lines 208-212). -/
def decodeStrs : List Bencode → Except ReadTorrentError (List (List Nat))
  | [] => .ok []
  | b :: rest =>
    match getStr b with
    | .error e => .error e
    | .ok s =>
      match decodeStrs rest with
      | .error e => .error e
      | .ok ss => .ok (s :: ss)

/-- `FileEntry::decode` (torrent.rs lines 199-216). -/
def FileEntry.decode (b : Bencode) : Except ReadTorrentError FileEntry :=
  match getStruct b with
  | .error e => .error e
  | .ok dict =>
    match getValue keyLength "length" dict with
    | .error e => .error e
    | .ok lb =>
      match getU64 lb with
      | .error e => .error e
      | .ok len =>
        match getValue keyPath "path" dict with
        | .error e => .error e
        | .ok pb =>
          match getList pb with
          | .error e => .error e
          | .ok pl =>
            match decodeStrs pl with
            | .error e => .error e
            | .ok path => .ok ⟨len, path⟩

/-- The loop of `Info::decode` filling `files` (torrent.rs lines 167-171). -/
def decodeFileEntries : List Bencode → Except ReadTorrentError (List FileEntry)
  | [] => .ok []
  | b :: rest =>
    match FileEntry.decode b with
    | .error e => .error e
    | .ok f =>
      match decodeFileEntries rest with
      | .error e => .error e
      | .ok fs => .ok (f :: fs)

/-- `Info::decode` (torrent.rs lines 139-185): name, piece length and pieces
are read in order, the pieces length is validated to be a multiple of 20,
then the layout is dispatched on the presence of the `length` key. -/
def Info.decode (b : Bencode) : Except ReadTorrentError Info :=
  match getStruct b with
  | .error e => .error e
  | .ok dict =>
    match getValue keyName "name" dict with
    | .error e => .error e
    | .ok nb =>
      match getStr nb with
      | .error e => .error e
      | .ok nm =>
        match getValue keyPieceLength "piece length" dict with
        | .error e => .error e
        | .ok plb =>
          match getU64 plb with
          | .error e => .error e
          | .ok pl =>
            match getValue keyPieces "pieces" dict with
            | .error e => .error e
            | .ok pzb =>
              match getStr pzb with
              | .error e => .error e
              | .ok pz =>
                if pz.length % 20 ≠ 0 then .error (.LogicError "Invalid pieces length")
                else
                  match benLookup keyLength dict with
                  | some lb =>
                    match getU64 lb with
                    | .error e => .error e
                    | .ok len => .ok ⟨nm, pl, pz, .SingleFile len⟩
                  | none =>
                    match getValue keyFiles "files" dict with
                    | .error e => .error e
                    | .ok fb =>
                      match getList fb with
                      | .error e => .error e
                      | .ok fl =>
                        match decodeFileEntries fl with
                        | .error e => .error e
                        | .ok files => .ok ⟨nm, pl, pz, .MultiFile files⟩

/-- `Torrent::decode` (torrent.rs lines 104-128): the info hash is the SHA-1
digest of `info_dict.to_bytes()`, the canonical re-serialization of the
parsed info value. -/
def Torrent.decode (b : Bencode) : Except ReadTorrentError Torrent :=
  match getStruct b with
  | .error e => .error e
  | .ok dict =>
    match getValue keyAnnounce "announce" dict with
    | .error e => .error e
    | .ok ab =>
      match getStr ab with
      | .error e => .error e
      | .ok ann =>
        match getValue keyInfo "info" dict with
        | .error e => .error e
        | .ok infoB =>
          match Info.decode infoB with
          | .error e => .error e
          | .ok info => .ok ⟨ann, info, sha1 (toBytes infoB)⟩

/-- `bencode::from_buffer` as used by `TorrentFile::from_bytes`: parse one
value consuming the whole buffer, or fail with a streaming error. -/
def from_buffer (s : List Nat) : Except ReadTorrentError Bencode :=
  match parseBen s with
  | some (v, []) => .ok v
  | _ => .error (.StreamingError "parse error")

/-- `TorrentFile::from_bytes` (torrent.rs lines 243-265), minus the
reference-counting plumbing: parse the buffer and decode the torrent. -/
def TorrentFile.from_bytes (s : List Nat) : Except ReadTorrentError Torrent :=
  match from_buffer s with
  | .error e => .error e
  | .ok b => Torrent.decode b

/-- Size of the `usize` value space; the release-profile Rust arithmetic in
`Info::piece_hash` wraps modulo this. -/
def U64 : Nat := 18446744073709551616

/-- `Info::piece_hash` (torrent.rs lines 218-232). `usize` arithmetic is
modelled modulo 2^64 (release-profile wrapping; a debug build would panic at
exactly the inputs where the model wraps). A Rust panic — the out-of-order
slice bounds reachable when `start + 20` wraps — is modelled as `.error`;
`.ok none`/`.ok (some h)` are the source's `None`/`Some(h)`. -/
def Info.piece_hash (self : Info) (index : Nat) : Except String (Option (List Nat)) :=
  let start := index * 20 % U64
  let e := (start + 20) % U64
  if e ≤ self.raw_pieces.length then
    if start ≤ e then
      .ok (if e - start = 20 then some ((self.raw_pieces.drop start).take (e - start)) else none)
    else .error "slice index starts at start but ends at e"
  else .ok none

/-! ## Tracker response decoding (src/core/tracker/tracker.rs) -/

/-- `BencodeDecodableError` of src/util/bencode/bencode_decodable_error.rs.
`Other` is the structural-validation kind, a constructor distinct from the
type errors `WrongType` and `KeyNotFound`. -/
inductive BencodeDecodableError where
  | KeyNotFound : String → BencodeDecodableError
  | WrongType : String → BencodeDecodableError
  | Other : String → BencodeDecodableError
deriving DecidableEq

/-- `BencodeDecodable::get_struct` of the util trait
(src/util/bencode/bencode_decodable.rs lines 40-49). -/
def getStructT : Bencode → Except BencodeDecodableError (List (List Nat × Bencode))
  | .bdict d => .ok d
  | _ => .error (.WrongType "Expected a dictionary")

/-- `BencodeDecodable::get_str` of the util trait (lines 24-31). -/
def getStrT : Bencode → Except BencodeDecodableError (List Nat)
  | .bstr s => .ok s
  | _ => .error (.WrongType "Expected a ByteString")

/-- `BencodeDecodable::get_u64` of the util trait (lines 14-21). -/
def getU64T : Bencode → Except BencodeDecodableError Nat
  | .num n => if 0 ≤ n then .ok n.toNat else .error (.WrongType "Expected a Number")
  | _ => .error (.WrongType "Expected a Number")

/-- `BencodeDecodable::get_struct_value` of the util trait (lines 52-67). -/
def getValueT (k : List Nat) (name : String) (dict : List (List Nat × Bencode)) :
    Except BencodeDecodableError Bencode :=
  match benLookup k dict with
  | some v => .ok v
  | none => .error (.KeyNotFound ("Key '" ++ name ++ "' not found"))

def keyInterval : List Nat := asciiBytes "interval"

def keyPeers : List Nat := asciiBytes "peers"

/-- The `PeerAddress` of spec section 3: `ip: 4 bytes`, `port: u16`. The
session-state fields of the `Peer` struct (choke and interest flags,
bitfield, timestamps) carry fixed initial values and are elided. -/
structure PeerAddress where
  ip : List Nat
  port : Nat
deriving DecidableEq

/-- Modelled from the spec: `Peer::decode` from a fixed 6-byte wire entry is
not under src/ — the `Peer` in src/core/peer/peer.rs decodes a bencode
dictionary, while its caller `TrackerResponse::decode` passes a `[u8; 6]`.
Per spec sections 3 and 4.6 each 6-byte chunk is 4 big-endian IP bytes
followed by a 2-byte big-endian port. -/
def Peer.decodeCompact (chunk : List Nat) : PeerAddress :=
  ⟨chunk.take 4, 256 * chunk.getD 4 0 + chunk.getD 5 0⟩

/-- `chunks_exact(6)`: complete 6-byte chunks in input order. -/
def chunks6 : List Nat → List (List Nat)
  | a :: b :: c :: d :: e :: f :: rest => [a, b, c, d, e, f] :: chunks6 rest
  | _ => []

/-- `TrackerResponse` of tracker.rs. -/
structure TrackerResponse where
  interval : Nat
  peers : List PeerAddress
deriving DecidableEq

/-- `TrackerResponse::decode` (tracker.rs lines 146-178): read `interval`,
read `peers` as bytes, reject a length that is not a multiple of 6 with an
`Other` error naming the length, else decode the 6-byte chunks in order. -/
def TrackerResponse.decode (b : Bencode) : Except BencodeDecodableError TrackerResponse :=
  match getStructT b with
  | .error e => .error e
  | .ok dict =>
    match getValueT keyInterval "interval" dict with
    | .error e => .error e
    | .ok ib =>
      match getU64T ib with
      | .error e => .error e
      | .ok interval =>
        match getValueT keyPeers "peers" dict with
        | .error e => .error e
        | .ok pb =>
          match getStrT pb with
          | .error e => .error e
          | .ok peersBytes =>
            if peersBytes.length % 6 ≠ 0 then
              .error (.Other ("Peer data length " ++ Nat.repr peersBytes.length ++
                " is not a multiple of 6."))
            else .ok ⟨interval, (chunks6 peersBytes).map Peer.decodeCompact⟩

/-- Spec-side description of the decoded peer list: entry `i` is built from
bytes `6i..6i+6`, 4 IP bytes then a big-endian 16-bit port, in input order. -/
def peersFromBytes (pb : List Nat) : List PeerAddress :=
  (List.range (pb.length / 6)).map (fun i =>
    ⟨(pb.drop (6 * i)).take 4, 256 * pb.getD (6 * i + 4) 0 + pb.getD (6 * i + 5) 0⟩)

/-! ## Tracker request building (src/core/tracker/tracker.rs) -/

/-- `u8::is_ascii_alphanumeric`. -/
def isAlnumByte (b : Nat) : Bool :=
  (48 ≤ b && b ≤ 57) || (65 ≤ b && b ≤ 90) || (97 ≤ b && b ≤ 122)

/-- `char::from_digit(d, 16)`, with the source's `unwrap_or('0')`. -/
def fromDigit (d : Nat) : Char :=
  if d < 10 then Char.ofNat (48 + d) else if d < 16 then Char.ofNat (87 + d) else '0'

/-- `char::to_ascii_uppercase`. -/
def toUpperAscii (c : Char) : Char :=
  if 97 ≤ c.toNat && c.toNat ≤ 122 then Char.ofNat (c.toNat - 32) else c

/-- Loop body of `TrackerRequest::url_encode` (tracker.rs lines 62-79):
alphanumerics and `-_.~` pass through, anything else becomes percent plus
two uppercase hex digits. -/
def encByte (b : Nat) : List Char :=
  if isAlnumByte b || b = 45 || b = 95 || b = 46 || b = 126 then [Char.ofNat b]
  else ['%', toUpperAscii (fromDigit (b / 16)), toUpperAscii (fromDigit (b % 16))]

/-- `TrackerRequest::url_encode` (tracker.rs lines 58-82). -/
def url_encode (bytes : List Nat) : List Char := (bytes.map encByte).flatten

/-- Spec-side uppercase hex digit, written directly from the spec's
"`%XX` with uppercase hex". -/
def specHexDigit (d : Nat) : Char :=
  if d < 10 then Char.ofNat (48 + d) else Char.ofNat (55 + d)

/-- Suffix of an URI starting at the first `/` or `?` after the authority:
the `path_and_query` component of `http::Uri`. -/
def findPQ : List Char → Option (List Char)
  | [] => none
  | c :: cs => if c = '/' || c = '?' then some (c :: cs) else findPQ cs

/-- Drop the scheme prefix up to and including `"://"`. -/
def dropScheme : List Char → Option (List Char)
  | ':' :: '/' :: '/' :: rest => some rest
  | _ :: cs => dropScheme cs
  | [] => none

/-- `path_and_query` of a parsed absolute http URI. -/
def uriPathAndQuery (url : List Char) : Option (List Char) :=
  match dropScheme url with
  | some rest => findPQ rest
  | none => none

/-- The `path_and_query` string assembled by `TrackerRequest::build_url`
(tracker.rs lines 85-136): it starts from `path()` — the path component
only, which never contains `?` — joins with `&` only if that path contains
`?`, else `?`, then appends the parameters in fixed order. `Uri::from_parts`
then reattaches the scheme and authority unchanged. -/
def build_path_and_query (tracker : List Char) (info_hash peer_id : List Nat)
    (port uploaded downloaded left : Nat) (compact : Bool) : List Char :=
  let path := match uriPathAndQuery tracker with
    | some p => p.takeWhile (fun c => c ≠ '?')
    | none => "/".toList
  path ++ (if path.contains '?' then ['&'] else ['?']) ++
    "info_hash=".toList ++ url_encode info_hash ++
    "&peer_id=".toList ++ url_encode peer_id ++
    "&port=".toList ++ (Nat.repr port).toList ++
    "&uploaded=".toList ++ (Nat.repr uploaded).toList ++
    "&downloaded=".toList ++ (Nat.repr downloaded).toList ++
    "&left=".toList ++ (Nat.repr left).toList ++
    "&compact=".toList ++ [if compact then '1' else '0']

/-! ## Concrete fixtures -/

/-- Twenty zero bytes: one all-zero piece hash. -/
def zeros20 : List Nat := List.replicate 20 0

/-- A parseable single-file info dictionary whose keys appear on the wire in
non-sorted order (`pieces`, `name`, `piece length`, `length`): a
non-canonical but still-parseable encoding. -/
def c1InfoSpan : List Nat :=
  asciiBytes "d6:pieces20:" ++ zeros20 ++ asciiBytes "4:name1:f12:piece lengthi1e6:lengthi1ee"

/-- A whole torrent buffer embedding `c1InfoSpan` verbatim as the value of
the `info` key. -/
def c1Buffer : List Nat := asciiBytes "d8:announce1:u4:info" ++ c1InfoSpan ++ [101]

/-- The value the parser produces for `c1InfoSpan`, normalized to sorted
key order. -/
def c1InfoVal : Bencode :=
  .bdict [(keyLength, .num 1), (keyName, .bstr (asciiBytes "f")),
          (keyPieceLength, .num 1), (keyPieces, .bstr zeros20)]

/-- The root value the parser produces for `c1Buffer`. -/
def c1Root : Bencode :=
  .bdict [(keyAnnounce, .bstr (asciiBytes "u")), (keyInfo, c1InfoVal)]

/-- Canonical re-serialization of `c1InfoVal` (sorted key order). -/
def c1Canon : List Nat :=
  asciiBytes "d6:lengthi1e4:name1:f12:piece lengthi1e6:pieces20:" ++ zeros20 ++ [101]

/-- SHA-1 of `c1Canon`, the digest the code stores. -/
def digestCode : List Nat :=
  [28, 64, 245, 76, 18, 32, 255, 21, 233, 214, 87, 92, 44, 115, 173, 190, 154, 137, 29, 209]

/-- SHA-1 of `c1InfoSpan`, the digest of the original serialized bytes. -/
def digestOrig : List Nat :=
  [14, 63, 220, 3, 252, 192, 50, 219, 76, 54, 24, 88, 196, 44, 114, 69, 225, 160, 103, 147]

/-- The decoded `Info` of `c1InfoVal`. -/
def c1Info : Info := ⟨asciiBytes "f", 1, zeros20, .SingleFile 1⟩

/-- The `info` value of a parsed root, when the root is a dictionary. -/
def infoValOf : Bencode → Option Bencode
  | .bdict d => benLookup keyInfo d
  | _ => none

/-- A canonically encoded torrent buffer with announce `u` and the same info
sub-tree value as `c1Buffer`. -/
def c9b1 : List Nat := asciiBytes "d8:announce1:u4:info" ++ c1Canon ++ [101]

/-- Same as `c9b1` except the announce URL is `v`. -/
def c9b2 : List Nat := asciiBytes "d8:announce1:v4:info" ++ c1Canon ++ [101]

/-- The root value the parser produces for `c9b2`. -/
def c9Root2 : Bencode :=
  .bdict [(keyAnnounce, .bstr (asciiBytes "v")), (keyInfo, c1InfoVal)]

/-- The info dictionary of the C2 counterexample: `length` is present but
ill-typed (a byte string) while `files` is present and well-formed. -/
def c2Dict : List (List Nat × Bencode) :=
  [(keyFiles, .blist [.bdict [(keyLength, .num 1), (keyPath, .blist [.bstr (asciiBytes "a")])]]),
   (keyLength, .bstr (asciiBytes "x")),
   (keyName, .bstr (asciiBytes "f")),
   (keyPieceLength, .num 1),
   (keyPieces, .bstr zeros20)]

/-- The info dictionary of the C7 counterexample: `piece length` is 0 and
everything else is valid. -/
def c7Dict : List (List Nat × Bencode) :=
  [(keyLength, .num 1), (keyName, .bstr (asciiBytes "f")),
   (keyPieceLength, .num 0), (keyPieces, .bstr zeros20)]

/-- The tracker URL of the C3 failing input: it already has a query. -/
def c3Tracker : List Char := "http://tracker.example/announce?key=1".toList

/-- A pass-through 20-byte peer id. -/
def peerIdBytes : List Nat := asciiBytes "-MS0100-AAAAAAAAAAAA"

/-- The `Info` of the C10 counterexample, with exactly one piece hash. -/
def c10Info : Info := ⟨asciiBytes "f", 1, zeros20, .SingleFile 1⟩

/-! ## Theorems -/

theorem bsize_pos (b : Bencode) : 1 ≤ bsize b := by
  cases b <;> simp [bsize]

theorem bsize_le_bsizeL {c : Bencode} {l : List Bencode} (hc : c ∈ l) :
    bsize c ≤ bsizeL l := by
  induction l with
  | nil => cases hc
  | cons hd tl ih =>
    rw [bsizeL]
    rcases List.mem_cons.mp hc with h | h
    · subst h; omega
    · have := ih h; omega

theorem bsize_le_bsizeD {kv : List Nat × Bencode} {es : List (List Nat × Bencode)}
    (hc : kv ∈ es) : bsize kv.2 ≤ bsizeD es := by
  induction es with
  | nil => cases hc
  | cons hd tl ih =>
    rw [bsizeD]
    rcases List.mem_cons.mp hc with h | h
    · subst h; omega
    · have := ih h; omega

/-- The encoder fuel is irrelevant once it reaches the node count, so
`toBytes` is the total re-serialization function of the source. -/
theorem toBytesF_fuel_irrelevant :
    ∀ f g b, bsize b ≤ f → bsize b ≤ g → toBytesF f b = toBytesF g b := by
  intro f
  induction f with
  | zero => intro g b hf _; have := bsize_pos b; omega
  | succ f ih =>
    intro g b hf hg
    match g, hg with
    | 0, hg => exact absurd hg (by have := bsize_pos b; omega)
    | g + 1, hg =>
      cases b with
      | num n => rfl
      | bstr s => rfl
      | blist l =>
        rw [toBytesF, toBytesF]
        have hm : l.map (toBytesF f) = l.map (toBytesF g) := by
          apply List.map_congr_left
          intro c hc
          have h1 : bsize c ≤ bsizeL l := bsize_le_bsizeL hc
          rw [bsize] at hf hg
          exact ih g c (by omega) (by omega)
        rw [hm]
      | bdict es =>
        rw [toBytesF, toBytesF]
        have hm : es.map (fun kv => strEnc kv.1 ++ toBytesF f kv.2) =
            es.map (fun kv => strEnc kv.1 ++ toBytesF g kv.2) := by
          apply List.map_congr_left
          intro kv hkv
          have h1 : bsize kv.2 ≤ bsizeD es := bsize_le_bsizeD hkv
          rw [bsize] at hf hg
          rw [ih g kv.2 (by omega) (by omega)]
        rw [hm]

theorem toBytesF_eq_toBytes {f : Nat} {b : Bencode} (hf : bsize b ≤ f) :
    toBytesF f b = toBytes b :=
  toBytesF_fuel_irrelevant f (bsize b) b hf le_rfl

example : sha1 (asciiBytes "abc") =
    [169, 153, 62, 54, 71, 6, 129, 106, 186, 62, 37, 113, 120, 80, 194, 108, 156, 208, 216, 157] := by
  decide

example : sha1 [] =
    [218, 57, 163, 238, 94, 107, 75, 13, 50, 85, 191, 239, 149, 96, 24, 144, 175, 216, 7, 9] := by
  decide

example : parseBen (asciiBytes "d3:fooi-7e3:bar2:ok1:xli1ei2eee") =
    some (.bdict [(asciiBytes "bar", .bstr (asciiBytes "ok")),
                  (asciiBytes "foo", .num (-7)),
                  (asciiBytes "x", .blist [.num 1, .num 2])], []) := by
  rfl

example : toBytes (.bdict [(asciiBytes "bar", .bstr (asciiBytes "ok")),
                  (asciiBytes "foo", .num (-7)),
                  (asciiBytes "x", .blist [.num 1, .num 2])]) =
    asciiBytes "d3:bar2:ok3:fooi-7e1:xli1ei2eee" := by
  have hb : bsize (.bdict [(asciiBytes "bar", .bstr (asciiBytes "ok")),
      (asciiBytes "foo", .num (-7)),
      (asciiBytes "x", .blist [.num 1, .num 2])]) = 6 := by
    simp [bsize, bsizeL, bsizeD]
  rw [toBytes, hb]
  rfl

theorem decodeC1Root : Torrent.decode c1Root = .ok ⟨asciiBytes "u", c1Info, digestCode⟩ := by
  have hsize : bsize c1InfoVal = 5 := by
    simp [c1InfoVal, bsize, bsizeL, bsizeD]
  have htb : toBytes c1InfoVal = c1Canon := by
    rw [toBytes, hsize]; rfl
  have h1 : Torrent.decode c1Root =
      .ok ⟨asciiBytes "u", c1Info, sha1 (toBytes c1InfoVal)⟩ := rfl
  rw [h1, htb, show sha1 c1Canon = digestCode from by decide]

theorem decodeC9Root2 : Torrent.decode c9Root2 = .ok ⟨asciiBytes "v", c1Info, digestCode⟩ := by
  have hsize : bsize c1InfoVal = 5 := by
    simp [c1InfoVal, bsize, bsizeL, bsizeD]
  have htb : toBytes c1InfoVal = c1Canon := by
    rw [toBytes, hsize]; rfl
  have h1 : Torrent.decode c9Root2 =
      .ok ⟨asciiBytes "v", c1Info, sha1 (toBytes c1InfoVal)⟩ := rfl
  rw [h1, htb, show sha1 c1Canon = digestCode from by decide]

/-- A successful `Torrent::decode` stores as `info_hash` the SHA-1 of the
re-serialization of the value found at key `info`. -/
theorem decode_ok_info_hash {b : Bencode} {t : Torrent} (h : Torrent.decode b = .ok t) :
    ∃ ib, infoValOf b = some ib ∧ t.info_hash = sha1 (toBytes ib) := by
  unfold Torrent.decode at h
  split at h
  · exact absurd h (by simp)
  · rename_i d hd
    have hb : b = .bdict d := by
      cases b <;> simp [getStruct] at hd
      rw [hd]
    split at h
    · exact absurd h (by simp)
    · split at h
      · exact absurd h (by simp)
      · rename_i ab hab ann hann
        split at h
        · exact absurd h (by simp)
        · rename_i infoB hinfo
          split at h
          · exact absurd h (by simp)
          · rename_i info hdec
            refine ⟨infoB, ?_, ?_⟩
            · rw [hb]
              show benLookup keyInfo d = some infoB
              unfold getValue at hinfo
              split at hinfo
              · rename_i v hv
                rw [hv]
                exact congrArg some (Except.ok.inj hinfo)
              · exact absurd hinfo (by simp)
            · cases h
              rfl

/-! ## Claim theorems -/

/-- Claim C1: for every byte buffer from which `Torrent::decode` succeeds,
the resulting `info_hash` equals the SHA-1 digest of the original serialized
bytes of the info sub-tree as they appeared in the source buffer. This fails
on the code: `Torrent::decode` hashes `info_dict.to_bytes()`, a fresh
re-serialization. On `c1Buffer`, whose info sub-tree `c1InfoSpan` is spelled
with non-sorted key order, decoding succeeds and stores the digest of the
normalized re-serialization, which differs from the digest of the original
span even though that span appears verbatim in the buffer. -/
theorem torrent_info_hash_hashes_reserialization :
    TorrentFile.from_bytes c1Buffer = .ok ⟨asciiBytes "u", c1Info, digestCode⟩ ∧
    c1Buffer = asciiBytes "d8:announce1:u4:info" ++ c1InfoSpan ++ [101] ∧
    parseBen c1InfoSpan = some (c1InfoVal, []) ∧
    sha1 c1InfoSpan = digestOrig ∧
    digestCode ≠ digestOrig := by
  have hsize : bsize c1InfoVal = 5 := by
    simp [c1InfoVal, bsize, bsizeL, bsizeD]
  have htb : toBytes c1InfoVal = c1Canon := by
    rw [toBytes, hsize]; rfl
  have hall : TorrentFile.from_bytes c1Buffer =
      .ok ⟨asciiBytes "u", c1Info, sha1 (toBytes c1InfoVal)⟩ := rfl
  have hdig : sha1 c1Canon = digestCode := by decide
  refine ⟨?_, rfl, rfl, by decide, by decide⟩
  rw [hall, htb, hdig]

/-- Claim C9: `info_hash` is deterministic — decoding the same buffer twice
yields the identical digest, and decoding two torrent buffers whose info
sub-trees are identical (and which may differ in the announce URL) yields
the same `info_hash`. -/
theorem info_hash_deterministic :
    (∀ s t t2, TorrentFile.from_bytes s = .ok t → TorrentFile.from_bytes s = .ok t2 →
      t.info_hash = t2.info_hash) ∧
    (∀ s1 s2 r1 r2 t1 t2, from_buffer s1 = .ok r1 → from_buffer s2 = .ok r2 →
      infoValOf r1 = infoValOf r2 → Torrent.decode r1 = .ok t1 →
      Torrent.decode r2 = .ok t2 → t1.info_hash = t2.info_hash) := by
  constructor
  · intro s t t2 h1 h2
    rw [h1] at h2
    rw [Except.ok.inj h2]
  · intro s1 s2 r1 r2 t1 t2 hb1 hb2 hiv hd1 hd2
    obtain ⟨ib1, hi1, hh1⟩ := decode_ok_info_hash hd1
    obtain ⟨ib2, hi2, hh2⟩ := decode_ok_info_hash hd2
    rw [hiv, hi2] at hi1
    rw [hh1, hh2, Option.some.inj hi1]

/-- Witness for C9: two concrete buffers that differ only in the announce
URL decode to the same `info_hash`. -/
theorem info_hash_deterministic_inst :
    from_buffer c9b1 = .ok c1Root ∧ from_buffer c9b2 = .ok c9Root2 ∧
    infoValOf c1Root = infoValOf c9Root2 ∧
    (Torrent.mk (asciiBytes "u") c1Info digestCode).info_hash =
      (Torrent.mk (asciiBytes "v") c1Info digestCode).info_hash :=
  ⟨rfl, rfl, rfl,
    info_hash_deterministic.2 c9b1 c9b2 c1Root c9Root2 _ _ rfl rfl rfl
      decodeC1Root decodeC9Root2⟩

theorem getU64_num (n : Int) :
    getU64 (.num n) = if 0 ≤ n then .ok n.toNat
      else .error (.WrongType "Expected a Number") := rfl

/-- Counterexample to claim C2: when `length` is present but of the wrong
type and `files` is present and well-typed, the claim says `MultiFile` is
selected; the code instead commits to the `SingleFile` branch and fails with
the `WrongType` error of `get_u64`. -/
theorem info_decode_length_ill_typed_fails :
    benLookup keyLength c2Dict = some (.bstr (asciiBytes "x")) ∧
    decodeFileEntries [.bdict [(keyLength, .num 1), (keyPath, .blist [.bstr (asciiBytes "a")])]] =
      .ok [⟨1, [asciiBytes "a"]⟩] ∧
    Info.decode (.bdict c2Dict) = .error (.WrongType "Expected a Number") :=
  ⟨rfl, rfl, rfl⟩

/-- Claim C2 as amended: `SingleFile` is selected exactly when the `length`
key is present — regardless of its type and of whether `files` is present;
if `length` is present but ill-typed the decode fails with that error rather
than probing `files`; `files` is probed exactly when `length` is absent, and
when both are absent the decode fails. -/
theorem info_layout_dispatch (d : List (List Nat × Bencode)) :
    (∀ v t, benLookup keyLength d = some v → Info.decode (.bdict d) = .ok t →
      t.file_details.isSingle = true) ∧
    (∀ t, benLookup keyLength d = none → Info.decode (.bdict d) = .ok t →
      t.file_details.isSingle = false) ∧
    (∀ nm pl pz, benLookup keyName d = some (.bstr nm) →
      benLookup keyPieceLength d = some (.num pl) → 0 ≤ pl →
      benLookup keyPieces d = some (.bstr pz) → pz.length % 20 = 0 →
      benLookup keyLength d = none → benLookup keyFiles d = none →
      Info.decode (.bdict d) = .error (.KeyNotFound "Key 'files' not found")) ∧
    (∀ nm pl pz v e, benLookup keyName d = some (.bstr nm) →
      benLookup keyPieceLength d = some (.num pl) → 0 ≤ pl →
      benLookup keyPieces d = some (.bstr pz) → pz.length % 20 = 0 →
      benLookup keyLength d = some v → getU64 v = .error e →
      Info.decode (.bdict d) = .error e) := by
  refine ⟨?_, ?_, ?_, ?_⟩
  · intro v t h1 h2
    unfold Info.decode at h2
    simp only [getStruct] at h2
    repeat' split at h2
    all_goals simp_all [FileDetails.isSingle]
    all_goals (subst h2; rfl)
  · intro t h1 h2
    unfold Info.decode at h2
    simp only [getStruct] at h2
    repeat' split at h2
    all_goals simp_all [FileDetails.isSingle]
    all_goals (subst h2; rfl)
  · intro nm pl pz h1 h2 h3 h4 h5 h6 h7
    unfold Info.decode getValue
    simp only [getStruct, h1, getStr, h2, getU64_num, if_pos h3, h4, h5, h6, h7]
    simp
  · intro nm pl pz v e h1 h2 h3 h4 h5 h6 h7
    unfold Info.decode getValue
    simp only [getStruct, h1, getStr, h2, getU64_num, if_pos h3, h4, h5, h6, h7]
    simp

/-- Witness for C2: with `length` absent and `files` absent, decoding the
otherwise-valid info dictionary fails. -/
theorem info_layout_dispatch_inst :
    Info.decode (.bdict [(keyName, .bstr (asciiBytes "f")), (keyPieceLength, .num 1),
      (keyPieces, .bstr zeros20)]) = .error (.KeyNotFound "Key 'files' not found") :=
  (info_layout_dispatch _).2.2.1 (asciiBytes "f") 1 zeros20 rfl rfl (by decide) rfl
    (by decide) rfl rfl

/-- Claim C5: an info dictionary whose `pieces` value is a byte string of
length not a multiple of 20 is rejected with the structural-validation
error `LogicError "Invalid pieces length"` — a constructor distinct from the
type errors — rather than a panic or silent truncation. -/
theorem info_pieces_length_validation :
    ∀ d nm pl pz, benLookup keyName d = some (.bstr nm) →
      benLookup keyPieceLength d = some (.num pl) → 0 ≤ pl →
      benLookup keyPieces d = some (.bstr pz) → pz.length % 20 ≠ 0 →
      Info.decode (.bdict d) = .error (.LogicError "Invalid pieces length") := by
  intro d nm pl pz h1 h2 h3 h4 h5
  unfold Info.decode getValue
  simp only [getStruct, h1, getStr, h2, getU64_num, if_pos h3, h4]
  simp [h5]

/-- Witness for C5: a `pieces` byte string of length 39 is rejected. -/
theorem info_pieces_length_validation_inst :
    Info.decode (.bdict [(keyName, .bstr (asciiBytes "f")), (keyPieceLength, .num 1),
      (keyPieces, .bstr (List.replicate 39 0))]) =
      .error (.LogicError "Invalid pieces length") :=
  info_pieces_length_validation _ (asciiBytes "f") 1 (List.replicate 39 0) rfl rfl
    (by decide) rfl (by decide)

/-- Counterexample to claim C7: an info dictionary with `piece length` equal
to 0 decodes successfully — there is no positivity check — so the decoded
`piece_length` is 0, not strictly greater than 0. -/
theorem piece_length_zero_decodes :
    Info.decode (.bdict c7Dict) = .ok ⟨asciiBytes "f", 0, zeros20, .SingleFile 1⟩ ∧
    (Info.mk (asciiBytes "f") 0 zeros20 (.SingleFile 1)).piece_length = 0 :=
  ⟨rfl, rfl⟩

/-- Claim C7 as amended: `piece_length` is the unsigned 64-bit value of the
`piece length` number, which the decoder only requires to be non-negative
(`try_into::<u64>()` fails exactly on negatives); 0 is accepted. -/
theorem piece_length_from_number :
    ∀ d t, Info.decode (.bdict d) = .ok t →
      ∃ n : Int, benLookup keyPieceLength d = some (.num n) ∧ 0 ≤ n ∧
        t.piece_length = n.toNat := by
  intro d t h
  unfold Info.decode at h
  simp only [getStruct] at h
  split at h
  · exact absurd h (by simp)
  · rename_i nb hnb
    split at h
    · exact absurd h (by simp)
    · rename_i nm hnm
      split at h
      · exact absurd h (by simp)
      · rename_i plb hplb
        split at h
        · exact absurd h (by simp)
        · rename_i pl hpl
          have hv : getValue keyPieceLength "piece length" d = .ok plb := hplb
          unfold getValue at hv
          obtain ⟨n, hn, h0, hnat⟩ : ∃ n : Int, plb = .num n ∧ 0 ≤ n ∧ pl = n.toNat := by
            cases plb with
            | num n =>
              rw [getU64] at hpl
              split at hpl
              · exact ⟨n, rfl, by assumption, (Except.ok.inj hpl).symm⟩
              · exact absurd hpl (by simp)
            | bstr s => exact absurd hpl (by simp [getU64])
            | blist l => exact absurd hpl (by simp [getU64])
            | bdict es => exact absurd hpl (by simp [getU64])
          refine ⟨n, ?_, h0, ?_⟩
          · split at hv
            · rename_i v hvv
              rw [hvv, Except.ok.inj hv, hn]
            · exact absurd hv (by simp)
          · rw [← hnat]
            clear hv hn
            repeat' split at h
            all_goals cases h
            all_goals rfl

/-- Witness for C7 amended: the `piece length` of a decoded info dictionary
is the (non-negative) number stored under the `piece length` key. -/
theorem piece_length_from_number_inst :
    ∃ n : Int, benLookup keyPieceLength c7Dict = some (.num n) ∧ 0 ≤ n ∧
      (Info.mk (asciiBytes "f") 0 zeros20 (.SingleFile 1)).piece_length = n.toNat :=
  piece_length_from_number c7Dict ⟨asciiBytes "f", 0, zeros20, .SingleFile 1⟩ rfl

theorem getU64T_num (n : Int) :
    getU64T (.num n) = if 0 ≤ n then .ok n.toNat
      else .error (.WrongType "Expected a Number") := rfl

/-- The chunked decoding of the compact peers byte string agrees with the
positional description: entry `i` comes from bytes `6i..6i+6`. -/
theorem chunks6_map_decode (pb : List Nat) :
    (chunks6 pb).map Peer.decodeCompact = peersFromBytes pb := by
  generalize hn : pb.length = n
  induction n using Nat.strong_induction_on generalizing pb with
  | _ n ih =>
  rcases pb with _ | ⟨a, _ | ⟨b, _ | ⟨c, _ | ⟨d, _ | ⟨e, _ | ⟨f, rest⟩⟩⟩⟩⟩⟩
  · rfl
  · simp [chunks6, peersFromBytes]
  · simp [chunks6, peersFromBytes]
  · simp [chunks6, peersFromBytes]
  · simp [chunks6, peersFromBytes]
  · simp [chunks6, peersFromBytes]
  · subst hn
    have ih2 := ih rest.length (by simp [List.length_cons]; omega) rest rfl
    show Peer.decodeCompact [a, b, c, d, e, f] :: (chunks6 rest).map Peer.decodeCompact =
      peersFromBytes (a :: b :: c :: d :: e :: f :: rest)
    rw [ih2]
    unfold peersFromBytes
    simp only [List.length_cons]
    rw [show (rest.length + 1 + 1 + 1 + 1 + 1 + 1) / 6 = rest.length / 6 + 1 from by omega]
    rw [List.range_succ_eq_map, List.map_cons, List.map_map]
    refine congrArg₂ List.cons rfl ?_
    apply List.map_congr_left
    intro i _
    show PeerAddress.mk ((rest.drop (6 * i)).take 4)
        (256 * rest.getD (6 * i + 4) 0 + rest.getD (6 * i + 5) 0) =
      PeerAddress.mk (((a :: b :: c :: d :: e :: f :: rest).drop (6 * (i + 1))).take 4)
        (256 * (a :: b :: c :: d :: e :: f :: rest).getD (6 * (i + 1) + 4) 0 +
          (a :: b :: c :: d :: e :: f :: rest).getD (6 * (i + 1) + 5) 0)
    have e1 : 6 * (i + 1) = 6 * i + 6 := by ring
    have e2 : 6 * (i + 1) + 4 = 6 * i + 4 + 6 := by ring
    have e3 : 6 * (i + 1) + 5 = 6 * i + 5 + 6 := by ring
    rw [e2, e3, e1]
    simp only [List.drop_succ_cons, List.getD_cons_succ]

/-- Claim C4: for a tracker response whose `peers` byte string has length a
multiple of 6, decoding yields exactly `length / 6` peer addresses in input
order, entry `i` being bytes `6i..6i+4` as the IP and bytes
`6i+4, 6i+5` as a big-endian port. -/
theorem tracker_response_peers_in_order :
    ∀ d iv pb, benLookup keyInterval d = some (.num iv) → 0 ≤ iv →
      benLookup keyPeers d = some (.bstr pb) → pb.length % 6 = 0 →
      TrackerResponse.decode (.bdict d) = .ok ⟨iv.toNat, peersFromBytes pb⟩ ∧
      (peersFromBytes pb).length = pb.length / 6 := by
  intro d iv pb h1 h2 h3 h4
  constructor
  · unfold TrackerResponse.decode getValueT
    simp only [getStructT, h1, getU64T_num, if_pos h2, h3, getStrT, h4]
    simp [chunks6_map_decode]
  · unfold peersFromBytes
    simp

/-- Witness for C4: a 12-byte peers string decodes to exactly 2 peer
addresses in input order. -/
theorem tracker_response_peers_in_order_inst :
    benLookup keyPeers [(keyInterval, .num 1800),
        (keyPeers, .bstr [1, 2, 3, 4, 26, 225, 5, 6, 7, 8, 0, 80])] =
      some (.bstr [1, 2, 3, 4, 26, 225, 5, 6, 7, 8, 0, 80]) ∧
    (12 : Nat) % 6 = 0 ∧
    TrackerResponse.decode (.bdict [(keyInterval, .num 1800),
        (keyPeers, .bstr [1, 2, 3, 4, 26, 225, 5, 6, 7, 8, 0, 80])]) =
      .ok ⟨1800, [⟨[1, 2, 3, 4], 6881⟩, ⟨[5, 6, 7, 8], 80⟩]⟩ :=
  ⟨rfl, by decide,
    (tracker_response_peers_in_order
      [(keyInterval, .num 1800), (keyPeers, .bstr [1, 2, 3, 4, 26, 225, 5, 6, 7, 8, 0, 80])]
      1800 [1, 2, 3, 4, 26, 225, 5, 6, 7, 8, 0, 80]
      rfl (by decide) rfl (by decide)).1.trans (by rfl)⟩

/-- Claim C6: a tracker response whose `peers` byte string has length not a
multiple of 6 is rejected with the structural-validation `Other` error whose
message names the actual length; the decoder is a total function. -/
theorem tracker_peers_length_validation :
    ∀ d iv pb, benLookup keyInterval d = some (.num iv) → 0 ≤ iv →
      benLookup keyPeers d = some (.bstr pb) → pb.length % 6 ≠ 0 →
      TrackerResponse.decode (.bdict d) =
        .error (.Other ("Peer data length " ++ Nat.repr pb.length ++
          " is not a multiple of 6.")) := by
  intro d iv pb h1 h2 h3 h4
  unfold TrackerResponse.decode getValueT
  simp only [getStructT, h1, getU64T_num, if_pos h2, h3, getStrT]
  simp [h4]

/-- Witness for C6: a 7-byte peers string is rejected with a message naming
the length 7. -/
theorem tracker_peers_length_validation_inst :
    TrackerResponse.decode (.bdict [(keyInterval, .num 1800),
        (keyPeers, .bstr [1, 2, 3, 4, 26, 225, 9])]) =
      .error (.Other "Peer data length 7 is not a multiple of 6.") :=
  (tracker_peers_length_validation
    [(keyInterval, .num 1800), (keyPeers, .bstr [1, 2, 3, 4, 26, 225, 9])]
    1800 [1, 2, 3, 4, 26, 225, 9]
    rfl (by decide) rfl (by decide)).trans (by rfl)

/-- Claim C8: `url_encode` maps each alphanumeric byte and each of `-_.~` to
itself and every other byte to `%` followed by two uppercase hex digits, is
a homomorphism on concatenation, sends 20 zero bytes to `"%00"` twenty
times, and sends the bytes of `"abc"` to `"abc"`. -/
theorem url_encode_characterization :
    (∀ b, b < 256 → (isAlnumByte b || b = 45 || b = 95 || b = 46 || b = 126) = true →
      url_encode [b] = [Char.ofNat b]) ∧
    (∀ b, b < 256 → (isAlnumByte b || b = 45 || b = 95 || b = 46 || b = 126) = false →
      url_encode [b] = ['%', specHexDigit (b / 16), specHexDigit (b % 16)]) ∧
    (∀ xs ys, url_encode (xs ++ ys) = url_encode xs ++ url_encode ys) ∧
    url_encode (List.replicate 20 0) = (List.replicate 20 "%00".toList).flatten ∧
    url_encode [97, 98, 99] = ['a', 'b', 'c'] := by
  refine ⟨by decide, by decide, ?_, by decide, by decide⟩
  intro xs ys
  unfold url_encode
  rw [List.map_append, List.flatten_append]

/-- Witness for C8: a pass-through byte and an escaped byte. -/
theorem url_encode_characterization_inst :
    url_encode [97] = [Char.ofNat 97] ∧
    url_encode [0] = ['%', specHexDigit 0, specHexDigit 0] :=
  ⟨url_encode_characterization.1 97 (by decide) (by decide),
   url_encode_characterization.2.1 0 (by decide) (by decide)⟩

/-- Claim C3 evaluated at the failing input: the tracker URL has the query
component `key=1`, yet `build_url` keeps only the path `/announce`, appends
with `?` (the `&` branch tests the query-free `path()` and is dead code),
and drops `key=1` entirely — the claim required joining with `&` and
preserving the existing query. The fixed parameter order and the `compact`
encoding are visible in the result. -/
theorem build_url_drops_existing_query :
    uriPathAndQuery c3Tracker = some "/announce?key=1".toList ∧
    build_path_and_query c3Tracker zeros20 peerIdBytes 6881 1 2 3 true =
      ("/announce?info_hash=%00%00%00%00%00%00%00%00%00%00%00%00%00%00%00%00%00%00%00%00" ++
        "&peer_id=-MS0100-AAAAAAAAAAAA&port=6881&uploaded=1&downloaded=2&left=3&compact=1").toList :=
  ⟨rfl, by decide⟩

/-- Counterexample to claim C10: at `index = 2^62` the `usize` computation
`index * 20` wraps to 0 (a debug build panics on the same multiplication),
so `piece_hash` returns the first hash as `Some` even though
`(index + 1) * 20` far exceeds the 20-byte `raw_pieces` — the claim required
`None` there and no panic anywhere. -/
theorem piece_hash_wraps_at_large_index :
    c10Info.piece_hash (2 ^ 62) = .ok (some zeros20) ∧
    ¬((2 ^ 62 + 1) * 20 ≤ c10Info.raw_pieces.length) := by
  constructor
  · rfl
  · decide

/-- Claim C10 as amended: for every index small enough that
`(index + 1) * 20` does not overflow `usize`, `piece_hash` never panics and
returns `Some` of the 20-byte slice at `index * 20` exactly when
`(index + 1) * 20 ≤ raw_pieces.len()`, else `None`; when the pieces length
is a multiple of 20 that bound is equivalent to `index < len / 20`. -/
theorem piece_hash_in_range (info : Info) (index : Nat)
    (hov : (index + 1) * 20 < U64) :
    info.piece_hash index =
      .ok (if (index + 1) * 20 ≤ info.raw_pieces.length
        then some ((info.raw_pieces.drop (index * 20)).take 20) else none) ∧
    ((index + 1) * 20 ≤ info.raw_pieces.length →
      ((info.raw_pieces.drop (index * 20)).take 20).length = 20) ∧
    (20 ∣ info.raw_pieces.length →
      ((index + 1) * 20 ≤ info.raw_pieces.length ↔
        index < info.raw_pieces.length / 20)) := by
  have hx : (index + 1) * 20 = index * 20 + 20 := by ring
  refine ⟨?_, ?_, ?_⟩
  · unfold Info.piece_hash
    rw [hx]
    dsimp only
    have h1 : index * 20 % U64 = index * 20 := Nat.mod_eq_of_lt (by unfold U64 at hov ⊢; omega)
    rw [h1]
    have h2 : (index * 20 + 20) % U64 = index * 20 + 20 :=
      Nat.mod_eq_of_lt (by unfold U64 at hov ⊢; omega)
    rw [h2]
    have h3 : index * 20 ≤ index * 20 + 20 := by omega
    have h4 : index * 20 + 20 - index * 20 = 20 := by omega
    by_cases hle : index * 20 + 20 ≤ info.raw_pieces.length
    · rw [if_pos hle, if_pos h3, h4, if_pos rfl, if_pos hle]
    · rw [if_neg hle, if_neg hle]
  · intro h
    rw [hx] at h
    simp only [List.length_take, List.length_drop]
    omega
  · rintro ⟨q, hq⟩
    rw [hq, Nat.mul_div_cancel_left q (by norm_num)]
    omega

/-- Witness for C10 amended: index 0 of a one-piece `Info` yields the single
all-zero hash. -/
theorem piece_hash_in_range_inst :
    (0 + 1) * 20 < U64 ∧ c10Info.piece_hash 0 = .ok (some zeros20) := by
  refine ⟨by decide, ?_⟩
  rw [(piece_hash_in_range c10Info 0 (by decide)).1]
  rfl
